import Mathlib

/-!
Shallow embedding of the YaraBench rule-extraction and scoring pipeline
(src/src/parsing/yara_extractor.py, src/src/evaluation/yara_validator.py,
src/src/evaluation/file_matcher.py, src/src/evaluation/llm_judge.py,
src/src/utils/text_utils.py, src/src/benchmark.py), together with
theorems settling the frozen claims about that pipeline.

Python strings are modelled as `List Char` (ASCII fragment: the char
classes of the regexes — `\s`, `\w`, lower-casing — are modelled on the
ASCII subset that the pipeline's inputs use).  Python floats are
modelled as `ℚ`; every score computation in the source is a finite
composition of additions, multiplications and divisions of small
decimal constants.  Fallible external capabilities (the YARA compiler,
base64 decoding, the judge-model call, JSON decoding) are passed in as
explicit function arguments of `Except` / `Option` type, exactly at the
points where the source invokes them.
-/

set_option maxRecDepth 4000

namespace YaraBench

/-- Python strings, modelled as lists of characters. -/
abbrev Str := List Char

/-- Python `\s` on the ASCII fragment (also the character class used by
`str.strip()` on ASCII input): space, tab, newline, carriage return,
vertical tab, form feed. -/
def isPyWS (c : Char) : Bool :=
  c = ' ' || c = '\t' || c = '\n' || c = '\r' || c = '\x0b' || c = '\x0c'

/-- Python `\w` on the ASCII fragment: letters, digits, underscore. -/
def isWordChar (c : Char) : Bool :=
  ( 'a' ≤ c && c ≤ 'z') || ( 'A' ≤ c && c ≤ 'Z') || ( '0' ≤ c && c ≤ '9') || c = '_'

/-- The base64 alphabet `A-Z a-z 0-9 + / =` (the character class of the
regex in `fix_base64_padding`). -/
def isB64Char (c : Char) : Bool :=
  ( 'A' ≤ c && c ≤ 'Z') || ( 'a' ≤ c && c ≤ 'z') || ( '0' ≤ c && c ≤ '9') ||
  c = '+' || c = '/' || c = '='

/-- `str.lower()` (ASCII). -/
def toLowerStr (s : Str) : Str := s.map Char.toLower

/-- `str.lstrip()`. -/
def lstrip (s : Str) : Str := s.dropWhile (fun c => isPyWS c)

/-- `str.rstrip()`. -/
def rstrip (s : Str) : Str := (s.reverse.dropWhile (fun c => isPyWS c)).reverse

/-- `str.strip()`. -/
def strip (s : Str) : Str := rstrip (lstrip s)

/-- `needle in hay` — substring containment of Python `str`. -/
def isSub (needle hay : Str) : Bool :=
  match hay with
  | [] => needle.isPrefixOf ([] : Str)
  | _ :: t => needle.isPrefixOf hay || isSub needle t

/-- `hay.find(needle)` restricted to the found case: index of the first
occurrence of `needle` in `hay`, if any. -/
def findSub (needle hay : Str) : Option Nat :=
  match hay with
  | [] => if needle = [] then some 0 else none
  | _ :: t =>
    if needle.isPrefixOf hay then some 0
    else (findSub needle t).map (· + 1)

/-- `s.count(c)` for a single character. -/
def countChar (c : Char) (s : Str) : Nat := (s.filter (fun d => d = c)).length

/-- `s.split('\n')` — splits at every newline, keeping empty pieces. -/
def splitNl (s : Str) : List Str :=
  match s with
  | [] => [[]]
  | c :: t =>
    let r := splitNl t
    if c = '\n' then [] :: r
    else
      match r with
      | [] => [[c]]
      | h :: rt => (c :: h) :: rt

/-- `'\n'.join(lines)`. -/
def joinNl (ls : List Str) : Str :=
  match ls with
  | [] => []
  | [l] => l
  | l :: t => l ++ '\n' :: joinNl t

/-- `s.split(sep)` for a non-empty separator string (Python
`str.split` with an explicit separator), via repeated `find`. -/
def splitOnSub (sep : Str) (s : Str) (fuel : Nat) : List Str :=
  match fuel with
  | 0 => [s]
  | fuel + 1 =>
    match findSub sep s with
    | none => [s]
    | some i => s.take i :: splitOnSub sep (s.drop (i + sep.length)) fuel

/-- Length of the maximal run of `\s` characters at the front. -/
def wsRunLen (s : Str) : Nat := (s.takeWhile (fun c => isPyWS c)).length

/-- Length of the maximal run of `\w` characters at the front. -/
def wordRunLen (s : Str) : Nat := (s.takeWhile (fun c => isWordChar c)).length

/-- Case-insensitive prefix test (`re.IGNORECASE` literal matching). -/
def ciPrefix (pat s : Str) : Bool := (toLowerStr pat).isPrefixOf (toLowerStr s)

/-! ## 4.1 Base64 Content Normalizer — `src/src/utils/text_utils.py` -/

/-- One step of `clean_text_output`'s code-block filter: a line is
dropped when `line.strip().startswith("```") and len(line.strip()) <= 10`. -/
def isFenceArtifactLine (line : Str) : Bool :=
  ( "```".toList).isPrefixOf (strip line) && (strip line).length ≤ 10

/-- `clean_text_output` (text_utils.py): drop fence-artifact lines when
the text contains a fence, strip, unwrap a single pair of surrounding
backticks, then strip every line and drop the empty ones. -/
def clean_text_output (text : Str) : Str :=
  let text :=
    if isSub ( "```".toList) text then
      joinNl ((splitNl text).filter (fun l => !isFenceArtifactLine l))
    else text
  let text := strip text
  let text :=
    if ( "`".toList).isPrefixOf text && ( "`".toList).isSuffixOf text then
      (text.drop 1).dropLast
    else text
  joinNl (((splitNl text).map strip).filter (fun l => l ≠ []))

/-- `fix_base64_padding` (text_utils.py): clean markdown, strip
whitespace/newlines/quotes, drop every character outside the base64
alphabet, then pad with `=` to a multiple of four. -/
def fix_base64_padding (b64 : Str) : Str :=
  let s := clean_text_output b64
  let s := (strip s).filter (fun c => c ≠ '\n' && c ≠ '\r' && c ≠ '"' && c ≠ '\'')
  let s := s.filter (fun c => isB64Char c)
  let missing := s.length % 4
  if missing ≠ 0 then s ++ List.replicate (4 - missing) '=' else s

/-! ## Claim C7 -/

theorem filter_all_b64 (l : Str) :
    (l.filter (fun c => isB64Char c)).all (fun c => isB64Char c) = true := by
  rw [List.all_eq_true]
  intro x hx
  exact (List.mem_filter.mp hx).2

theorem pad_shape (f : Str) :
    (if f.length % 4 ≠ 0 then f ++ List.replicate (4 - f.length % 4) '=' else f) =
      f ++ List.replicate ((4 - f.length % 4) % 4) '=' := by
  by_cases h : f.length % 4 = 0
  · rw [if_neg (by omega), h]
    norm_num
  · have hlt : f.length % 4 < 4 := Nat.mod_lt _ (by norm_num)
    have he : (4 - f.length % 4) % 4 = 4 - f.length % 4 := by omega
    rw [if_pos h, he]

/-- C7: for every input, the output of `fix_base64_padding` consists
only of base64-alphabet characters, has length divisible by 4, and is
exactly the alphabet-filtered cleaned text followed by `(4 - len % 4) % 4`
padding characters `=`.  The function is total (never raises). -/
theorem c7_fix_base64_padding_shape (b64 : Str) :
    (fix_base64_padding b64).all (fun c => isB64Char c) = true ∧
    (fix_base64_padding b64).length % 4 = 0 ∧
    fix_base64_padding b64 =
      (let f := ((strip (clean_text_output b64)).filter
        (fun c => c ≠ '\n' && c ≠ '\r' && c ≠ '"' && c ≠ '\'')).filter (fun c => isB64Char c)
      f ++ List.replicate ((4 - f.length % 4) % 4) '=') := by
  have hshape : fix_base64_padding b64 =
      (let f := ((strip (clean_text_output b64)).filter
        (fun c => c ≠ '\n' && c ≠ '\r' && c ≠ '"' && c ≠ '\'')).filter (fun c => isB64Char c)
      f ++ List.replicate ((4 - f.length % 4) % 4) '=') := by
    simp only [fix_base64_padding]
    exact pad_shape _
  refine ⟨?_, ?_, hshape⟩
  · rw [hshape, List.all_eq_true]
    intro x hx
    rcases List.mem_append.mp hx with hx | hx
    · exact (List.mem_filter.mp hx).2
    · rw [List.eq_of_mem_replicate hx]
      rfl
  · rw [hshape]
    show (_ ++ _ : Str).length % 4 = 0
    rw [List.length_append, List.length_replicate]
    omega

/-! ## Data model — `src/src/models/challenge.py` -/

/-- `TestFile` (challenge.py): one labelled content sample. -/
structure TestFile where
  name : Str
  content_b64 : Str
  should_match : Bool
deriving DecidableEq

/-- `Challenge` (challenge.py): one benchmark item.  `level` and
`metadata` are provenance-only and not behaviour-altering for the
evaluated core, so they are not carried here. -/
structure Challenge where
  id : Str
  actionable : Bool
  description : Str
  expected_strings : List Str
  expected_keywords : List Str
  test_files : List TestFile
deriving DecidableEq

/-! ## 4.3/4.4 Structural Validator and Syntax/Feature Evaluator —
`src/src/evaluation/yara_validator.py` -/

/-- Hexadecimal digit (lowercase), as produced by `bytes.hex()`. -/
def hexDigit (n : Nat) : Char :=
  if n < 10 then Char.ofNat ( '0'.toNat + n) else Char.ofNat ( 'a'.toNat + n - 10)

/-- Two lowercase hex digits of one byte. -/
def hexByte (n : Nat) : Str := [hexDigit (n / 16 % 16), hexDigit (n % 16)]

/-- `s.encode().hex()` on the ASCII fragment: each character becomes two
lowercase hex digits of its code point. -/
def hexEncode (s : Str) : Str := (s.map (fun c => hexByte (c.toNat % 256))).flatten

/-- One character of `repr(s)` for quote character `q` (Python `repr` on
the ASCII fragment). -/
def pyReprChar (q : Char) (c : Char) : Str :=
  if c = '\\' then [ '\\', '\\']
  else if c = q then [ '\\', q]
  else if c = '\n' then [ '\\', 'n']
  else if c = '\r' then [ '\\', 'r']
  else if c = '\t' then [ '\\', 't']
  else if c.toNat < 32 || c.toNat ≥ 127 then [ '\\', 'x'] ++ hexByte (c.toNat % 256)
  else [c]

/-- Python `repr` of a string (ASCII fragment): single quotes, unless
the string contains a single quote and no double quote. -/
def pyRepr (s : Str) : Str :=
  let q : Char := if s.contains '\'' && !(s.contains '"') then '"' else '\''
  q :: (s.map (pyReprChar q)).flatten ++ [q]

/-- `s.replace('\\', '\\\\')`. -/
def doubleBackslashes (s : Str) : Str :=
  (s.map (fun c => if c = '\\' then [ '\\', '\\'] else [c])).flatten

/-- `YaraValidator._find_expected_strings`: an expected string is found
when it occurs in the rule verbatim, in `repr` form, hex-encoded, or
with backslashes doubled. -/
def find_expected_strings (rule : Str) (expected : List Str) : List Str :=
  expected.filter (fun e =>
    isSub e rule || isSub (pyRepr e) rule || isSub (hexEncode e) rule ||
    isSub (doubleBackslashes e) rule)

/-- `YaraValidator._find_expected_keywords`: case-insensitive
containment, except that `pe`/`elf` count only as `pe.` member access
or as a quoted module import. -/
def find_expected_keywords (rule : Str) (expected : List Str) : List Str :=
  let rl := toLowerStr rule
  expected.filter (fun kw =>
    let kl := toLowerStr kw
    if kl = "pe".toList || kl = "elf".toList then
      isSub (kl ++ ( ".".toList)) rl || isSub (( "import \"".toList) ++ kl ++ ( "\"".toList)) rl
    else isSub kl rl)

/-- `YaraValidator._validate_structure`: the cheap pre-compilation
gate; returns a diagnostic, or `none` when the rule passes. -/
def validate_structure (rule : Str) : Option Str :=
  if rule = [] ∨ strip rule = [] then some ( "Empty rule".toList)
  else if ¬ isSub ( "rule ".toList) rule then
    some ( "Incomplete rule structure - missing 'rule' keyword".toList)
  else if ¬ isSub ( "\x7b".toList) rule then
    some ( "Incomplete rule structure - missing opening brace".toList)
  else if ¬ isSub ( "\x7d".toList) rule then
    some ( "Incomplete rule structure - missing closing brace".toList)
  else if ¬ isSub ( "condition:".toList) rule then
    some ( "Incomplete rule structure - missing condition".toList)
  else if countChar '\x7b' rule ≠ countChar '\x7d' rule then
    some ( "Incomplete rule structure - unbalanced braces".toList)
  else none

/-- Outcome of the external `yara.compile` capability: success, a
`yara.SyntaxError`, or any other exception. -/
inductive CompileErr where
  | synErr (msg : Str)
  | otherErr (msg : Str)
deriving DecidableEq

/-- Result dictionary of `YaraValidator.evaluate` (the keys it
populates).  `syntax_valid` embeds the source's `valid_syntax` key. -/
structure ValidatorResults where
  syntax_valid : Bool
  expected_strings_found : List Str
  expected_keywords_found : List Str
  error : Option Str
deriving DecidableEq

/-- `YaraValidator.evaluate`: run the structural gate; on failure stop
with its diagnostic; otherwise invoke the external compile capability
and on success collect the expected-feature hits. -/
def yaraValidatorEvaluate (compile : Str → Except CompileErr Unit) (ch : Challenge)
    (rule : Str) : ValidatorResults :=
  match validate_structure rule with
  | some e => ⟨false, [], [], some e⟩
  | none =>
    match compile rule with
    | .error (.synErr m) => ⟨false, [], [], some (( "YARA syntax error: ".toList) ++ m)⟩
    | .error (.otherErr m) => ⟨false, [], [], some (( "YARA compilation error: ".toList) ++ m)⟩
    | .ok _ =>
      ⟨true,
        if ch.expected_strings ≠ [] then find_expected_strings rule ch.expected_strings else [],
        if ch.expected_keywords ≠ [] then find_expected_keywords rule ch.expected_keywords else [],
        none⟩

/-! ## Claim C5 -/

/-- C5: the structural gate returns a diagnostic exactly when the rule
is empty/whitespace-only, lacks the `rule ` keyword, an opening or
closing brace or a `condition:` marker, or has unbalanced brace counts;
on a diagnostic the evaluator answers `valid_syntax = false` with that
diagnostic without invoking the compile capability (the result is
independent of it); when the gate passes, compilation is attempted and
`valid_syntax` records its outcome. -/
theorem c5_structural_gate (rule : Str) :
    ((validate_structure rule).isSome ↔
      (strip rule = [] ∨ ¬ isSub ( "rule ".toList) rule ∨ ¬ isSub ( "\x7b".toList) rule ∨
        ¬ isSub ( "\x7d".toList) rule ∨ ¬ isSub ( "condition:".toList) rule ∨
        countChar '\x7b' rule ≠ countChar '\x7d' rule)) ∧
    (∀ (ch : Challenge) (c₁ c₂ : Str → Except CompileErr Unit) (e : Str),
      validate_structure rule = some e →
      yaraValidatorEvaluate c₁ ch rule = yaraValidatorEvaluate c₂ ch rule ∧
      (yaraValidatorEvaluate c₁ ch rule).syntax_valid = false ∧
      (yaraValidatorEvaluate c₁ ch rule).error = some e) ∧
    (∀ (ch : Challenge) (compile : Str → Except CompileErr Unit),
      validate_structure rule = none →
      ((yaraValidatorEvaluate compile ch rule).syntax_valid = true ↔
        compile rule = Except.ok ())) := by
  refine ⟨?_, ?_, ?_⟩
  · unfold validate_structure
    split_ifs with h1 h2 h3 h4 h5 h6 <;>
      first
        | (refine iff_of_true rfl ?_
           first
             | tauto
             | (rcases h1 with h | h
                · left; rw [h]; rfl
                · exact Or.inl h))
        | (refine iff_of_false (by simp) ?_
           intro hd
           tauto)
  · intro ch c₁ c₂ e he
    unfold yaraValidatorEvaluate
    rw [he]
    exact ⟨rfl, rfl, rfl⟩
  · intro ch compile hn
    unfold yaraValidatorEvaluate
    rw [hn]
    cases hc : compile rule with
    | ok u => cases u; simp [hc]
    | error err => cases err <;> simp [hc]

/-! ## 4.5 Execution Evaluator — `src/src/evaluation/file_matcher.py` -/

/-- Decoded byte payloads (abstract). -/
abbrev Bytes := List Nat

/-- Python `dict` assignment `d[k] = v` on an insertion-ordered
association list: overwrite in place, else append. -/
def dictSet {β : Type} : List (Str × β) → Str → β → List (Str × β)
  | [], k, v => [(k, v)]
  | (k', v') :: rest, k, v =>
    if k' = k then (k', v) :: rest else (k', v') :: dictSet rest k v

/-- Result dictionary of `FileMatcher.evaluate`. -/
structure MatcherResults where
  execution_results : List (Str × Bool)
  error : Option Str
deriving DecidableEq

/-- One iteration of the `FileMatcher.evaluate` loop body: decode the
test file's payload (after `fix_base64_padding`) and run the compiled
matcher; either failure records `False` plus a diagnostic. -/
def fileMatchOne (b64decode : Str → Except Str Bytes) (matcher : Bytes → Except Str Bool)
    (tf : TestFile) : Bool × Option Str :=
  match b64decode (fix_base64_padding tf.content_b64) with
  | .error e =>
    (false, some (( "Failed to decode ".toList) ++ tf.name ++ ( ": ".toList) ++ e))
  | .ok content =>
    match matcher content with
    | .ok b => (b, none)
    | .error e =>
      (false, some (( "Failed to match ".toList) ++ tf.name ++ ( ": ".toList) ++ e))

/-- The `for test_file in challenge.test_files` loop of
`FileMatcher.evaluate`: every iteration stores an entry under the
file's name; a failure diagnostic overwrites the previous one
(last-write-wins), a success leaves the previous diagnostic. -/
def fileMatcherGo (b64decode : Str → Except Str Bytes) (matcher : Bytes → Except Str Bool)
    (tfs : List TestFile) (acc : MatcherResults) : MatcherResults :=
  match tfs with
  | [] => acc
  | tf :: rest =>
    let r := fileMatchOne b64decode matcher tf
    fileMatcherGo b64decode matcher rest
      ⟨dictSet acc.execution_results tf.name r.1,
        match r.2 with
        | some e => some e
        | none => acc.error⟩

/-- `FileMatcher.evaluate`: empty test-file list short-circuits;
otherwise compile once (a failure leaves the results empty with a
diagnostic) and run every test file through `fileMatchOne`. -/
def fileMatcherEvaluate (compile : Str → Except CompileErr (Bytes → Except Str Bool))
    (b64decode : Str → Except Str Bytes) (ch : Challenge) (rule : Str) : MatcherResults :=
  if ch.test_files = [] then ⟨[], none⟩
  else
    match compile rule with
    | .ok matcher => fileMatcherGo b64decode matcher ch.test_files ⟨[], none⟩
    | .error (.synErr m) => ⟨[], some (( "YARA syntax error: ".toList) ++ m)⟩
    | .error (.otherErr m) => ⟨[], some (( "Execution error: ".toList) ++ m)⟩

/-! ## Claim C10 -/

theorem dictSet_lookup_self (d : List (Str × Bool)) (k : Str) (v : Bool) :
    List.lookup k (dictSet d k v) = some v := by
  induction d with
  | nil => simp [dictSet, List.lookup]
  | cons p rest ih =>
    obtain ⟨k', v'⟩ := p
    by_cases h : k' = k
    · simp [dictSet, h, List.lookup]
    · simp only [dictSet, if_neg h, List.lookup]
      have hne : (k == k') = false := by
        simp only [beq_eq_false_iff_ne]
        exact fun hh => h hh.symm
      rw [hne]
      exact ih

theorem dictSet_lookup_isSome_mono (d : List (Str × Bool)) (k n : Str) (v : Bool)
    (h : (List.lookup n d).isSome = true) :
    (List.lookup n (dictSet d k v)).isSome = true := by
  induction d with
  | nil => simp [List.lookup] at h
  | cons p rest ih =>
    obtain ⟨k', v'⟩ := p
    rw [List.lookup] at h
    by_cases hk : k' = k
    · rw [dictSet, if_pos hk, List.lookup]
      cases hn : (n == k') with
      | true => rfl
      | false =>
        rw [hn] at h
        exact h
    · rw [dictSet, if_neg hk, List.lookup]
      cases hn : (n == k') with
      | true => rfl
      | false =>
        rw [hn] at h
        exact ih h

theorem fileMatcherGo_lookup_mono (b64decode : Str → Except Str Bytes)
    (matcher : Bytes → Except Str Bool) (tfs : List TestFile) (acc : MatcherResults) (n : Str)
    (h : (List.lookup n acc.execution_results).isSome = true) :
    (List.lookup n (fileMatcherGo b64decode matcher tfs acc).execution_results).isSome = true := by
  induction tfs generalizing acc with
  | nil => exact h
  | cons tf rest ih =>
    exact ih _ (dictSet_lookup_isSome_mono _ _ _ _ h)

theorem fileMatcherGo_covers (b64decode : Str → Except Str Bytes)
    (matcher : Bytes → Except Str Bool) (tfs : List TestFile) (acc : MatcherResults)
    (tf : TestFile) (htf : tf ∈ tfs) :
    (List.lookup tf.name (fileMatcherGo b64decode matcher tfs acc).execution_results).isSome
      = true := by
  induction tfs generalizing acc with
  | nil => cases htf
  | cons hd rest ih =>
    rw [fileMatcherGo]
    rcases List.mem_cons.mp htf with h | h
    · subst h
      exact fileMatcherGo_lookup_mono _ _ _ _ _
        (by rw [dictSet_lookup_self]; rfl)
    · exact ih _ h


/-- C10: whenever compilation succeeds, the execution evaluator's
result map contains an entry for every test file of the challenge,
keyed by the file's name — decode or match failures record `False`
rather than omitting the file. -/
theorem c10_execution_results_cover_test_files
    (compile : Str → Except CompileErr (Bytes → Except Str Bool))
    (b64decode : Str → Except Str Bytes) (ch : Challenge) (rule : Str)
    (matcher : Bytes → Except Str Bool) (hc : compile rule = Except.ok matcher) :
    ∀ tf ∈ ch.test_files,
      (List.lookup tf.name
        (fileMatcherEvaluate compile b64decode ch rule).execution_results).isSome = true := by
  intro tf htf
  unfold fileMatcherEvaluate
  have hne : ¬ ch.test_files = [] := by
    intro h
    rw [h] at htf
    cases htf
  rw [if_neg hne, hc]
  exact fileMatcherGo_covers _ _ _ _ _ htf

/-- Witness for C10 at a concrete instantiation: one test file whose
payload fails to decode still gets an entry. -/
theorem c10_witness :
    (List.lookup ( "f1".toList)
      (fileMatcherEvaluate (fun _ => Except.ok (fun _ => Except.ok true))
        (fun _ => Except.error ( "bad".toList))
        ⟨( "c1".toList), true, [], [], [], [⟨( "f1".toList), ( "AAAA".toList), true⟩]⟩
        ( "rule r \x7b condition: true \x7d".toList)).execution_results).isSome = true :=
  c10_execution_results_cover_test_files
    (fun _ => Except.ok (fun _ => Except.ok true))
    (fun _ => Except.error ( "bad".toList))
    ⟨( "c1".toList), true, [], [], [], [⟨( "f1".toList), ( "AAAA".toList), true⟩]⟩
    ( "rule r \x7b condition: true \x7d".toList)
    (fun _ => Except.ok true) rfl
    ⟨( "f1".toList), ( "AAAA".toList), true⟩ (List.mem_singleton.mpr rfl)

/-! ## 4.6 Composite Scorer — `src/src/benchmark.py`, `_calculate_score` -/

/-- The merged evaluator-result dictionary consumed by
`Benchmark._calculate_score` (ordered union of the validator, matcher
and judge outputs; `.get` defaults are the structure's content when a
producing evaluator did not run).  `syntax_valid` embeds the source's
`valid_syntax` key. -/
structure EvalResults where
  syntax_valid : Bool
  expected_strings_found : List Str
  expected_keywords_found : List Str
  execution_results : List (Str × Bool)
  error : Option Str
  llm_judge_score : Option ℚ
deriving DecidableEq

/-- `execution_results.get(test_file.name, False)`. -/
def execLookup (er : List (Str × Bool)) (n : Str) : Bool :=
  match List.lookup n er with
  | some b => b
  | none => false

/-- `Benchmark._calculate_score`: weighted combination of syntax,
string coverage, keyword coverage, match accuracy and the optional
judge score.  (The `rule` argument is part of the source signature but
unused by its body.) -/
def calculate_score (ch : Challenge) (rule : Str) (er : EvalResults) : ℚ :=
  let syntax_score : ℚ := if er.syntax_valid then 1.0 else 0.0
  let expected_strings := ch.expected_strings.length
  let found_strings := er.expected_strings_found.length
  let string_score : ℚ :=
    if expected_strings > 0 then (found_strings : ℚ) / (expected_strings : ℚ) else 1.0
  let expected_keywords := ch.expected_keywords.length
  let found_keywords := er.expected_keywords_found.length
  let keyword_score : ℚ :=
    if expected_keywords > 0 then (found_keywords : ℚ) / (expected_keywords : ℚ) else 1.0
  let match_score : ℚ :=
    if er.execution_results ≠ [] then
      let correct_matches :=
        (ch.test_files.filter
          (fun tf => execLookup er.execution_results tf.name = tf.should_match)).length
      (correct_matches : ℚ) / (ch.test_files.length : ℚ)
    else 0.0
  match er.llm_judge_score with
  | some j =>
    0.2 * syntax_score + 0.15 * string_score + 0.1 * keyword_score + 0.35 * match_score + 0.2 * j
  | none =>
    0.3 * syntax_score + 0.2 * string_score + 0.1 * keyword_score + 0.4 * match_score

/-! ## Claim C1 -/

/-- Modelled from the spec's words (§4.6 / claim C1), for comparison
with `calculate_score`: `syntax_score` is 1.0 iff valid; a coverage
score is found/total and 1.0 for an empty expected list; `match_score`
is the fraction of test files whose observed match equals
`should_match` when execution produced at least one result and 0.0
otherwise; fixed weight vectors with and without a judge score. -/
def specCompositeScore (ch : Challenge) (er : EvalResults) : ℚ :=
  let syntax_score : ℚ := if er.syntax_valid then 1 else 0
  let string_score : ℚ :=
    if ch.expected_strings = [] then 1
    else (er.expected_strings_found.length : ℚ) / (ch.expected_strings.length : ℚ)
  let keyword_score : ℚ :=
    if ch.expected_keywords = [] then 1
    else (er.expected_keywords_found.length : ℚ) / (ch.expected_keywords.length : ℚ)
  let match_score : ℚ :=
    if er.execution_results = [] then 0
    else ((ch.test_files.filter
        (fun tf => execLookup er.execution_results tf.name = tf.should_match)).length : ℚ) /
      (ch.test_files.length : ℚ)
  match er.llm_judge_score with
  | some j =>
    (20 / 100) * syntax_score + (15 / 100) * string_score + (10 / 100) * keyword_score +
      (35 / 100) * match_score + (20 / 100) * j
  | none =>
    (30 / 100) * syntax_score + (20 / 100) * string_score + (10 / 100) * keyword_score +
      (40 / 100) * match_score

/-- C1: the composite scorer is exactly the function described by the
spec.  The hypothesis excludes the single input class on which the
Python source would raise `ZeroDivisionError` (a non-empty
`execution_results` together with an empty `test_files` list — never
produced by the pipeline, whose execution results are keyed by test
files). -/
theorem c1_calculate_score_exact (ch : Challenge) (rule : Str) (er : EvalResults)
    (_hz : er.execution_results ≠ [] → ch.test_files ≠ []) :
    calculate_score ch rule er = specCompositeScore ch er := by
  unfold calculate_score specCompositeScore
  have hstr : (if ch.expected_strings.length > 0 then
      (er.expected_strings_found.length : ℚ) / (ch.expected_strings.length : ℚ) else (1.0 : ℚ)) =
      (if ch.expected_strings = [] then (1 : ℚ)
      else (er.expected_strings_found.length : ℚ) / (ch.expected_strings.length : ℚ)) := by
    by_cases h : ch.expected_strings = []
    · rw [if_pos h, if_neg (by rw [h]; simp)]
      norm_num
    · rw [if_neg h, if_pos (by simpa [List.length_pos] using h)]
  have hkw : (if ch.expected_keywords.length > 0 then
      (er.expected_keywords_found.length : ℚ) / (ch.expected_keywords.length : ℚ) else (1.0 : ℚ)) =
      (if ch.expected_keywords = [] then (1 : ℚ)
      else (er.expected_keywords_found.length : ℚ) / (ch.expected_keywords.length : ℚ)) := by
    by_cases h : ch.expected_keywords = []
    · rw [if_pos h, if_neg (by rw [h]; simp)]
      norm_num
    · rw [if_neg h, if_pos (by simpa [List.length_pos] using h)]
  have hmatch : (if er.execution_results ≠ [] then
      ((ch.test_files.filter
        (fun tf => execLookup er.execution_results tf.name = tf.should_match)).length : ℚ) /
        (ch.test_files.length : ℚ) else (0.0 : ℚ)) =
      (if er.execution_results = [] then (0 : ℚ)
      else ((ch.test_files.filter
        (fun tf => execLookup er.execution_results tf.name = tf.should_match)).length : ℚ) /
        (ch.test_files.length : ℚ)) := by
    by_cases h : er.execution_results = []
    · rw [if_neg (by simp [h]), if_pos h]
      norm_num
    · rw [if_pos h, if_neg h]
  simp only [hstr, hkw, hmatch]
  cases er.llm_judge_score with
  | some j => norm_num
  | none => norm_num

/-- Witness for C1 at a concrete input with a judge score and one
correctly matched test file. -/
theorem c1_witness :
    calculate_score
      ⟨( "c".toList), true, ( "d".toList), [( "evil".toList)], [],
        [⟨( "f1".toList), ( "AAAA".toList), true⟩]⟩
      ( "rule r \x7b condition: true \x7d".toList)
      ⟨true, [( "evil".toList)], [], [(( "f1".toList), true)], none, some (1 / 2)⟩ =
    specCompositeScore
      ⟨( "c".toList), true, ( "d".toList), [( "evil".toList)], [],
        [⟨( "f1".toList), ( "AAAA".toList), true⟩]⟩
      ⟨true, [( "evil".toList)], [], [(( "f1".toList), true)], none, some (1 / 2)⟩ :=
  c1_calculate_score_exact _ _ _ (fun _ h => by cases h)

/-! ## LLM Judge — `src/src/evaluation/llm_judge.py` -/

/-- JSON values as returned by `json.loads`, at the granularity the
judge pipeline distinguishes: numbers (the modelled numeral fragment),
strings, objects, and `other` for the remaining kinds (booleans, null,
arrays), whose only observed behaviour here is being non-dict. -/
inductive JVal where
  | num (q : ℚ)
  | str (s : Str)
  | obj (fields : List (Str × JVal))
  | other

/-- `str(value)` for the modelled `JVal` fragment, used only to fill
feedback text: integers print as digits; non-integral numerals and the
`other` kinds are outside the modelled fragment and rendered
schematically (no claim observes these strings). -/
def pyStrModel : JVal → Str
  | .num q => if q.den = 1 then (Nat.toDigits 10 q.num.natAbs) else ( "<number>".toList)
  | .str s => s
  | .obj _ => ( "<dict>".toList)
  | .other => ( "<value>".toList)

/-- The five criterion keys with their weights, in the dictionary order
of `_calculate_overall_score`. -/
def judgeWeights : List (Str × ℚ) :=
  [(( "correctness".toList), 0.35), (( "completeness".toList), 0.25),
   (( "efficiency".toList), 0.15), (( "best_practices".toList), 0.15),
   (( "false_positive_risk".toList), 0.1)]

/-- The criterion keys required by `_parse_evaluation_response`. -/
def requiredKeys : List Str := judgeWeights.map Prod.fst

/-- One step of `_parse_evaluation_response`'s normalisation: a missing
criterion becomes `{"score": 5, "feedback": "Not evaluated"}`, a
non-dict value is replaced by `{"score": 5, "feedback": str(value)}`,
and a dict without a `score` key gets `score = 5` appended. -/
def normalizeCrit (fields : List (Str × JVal)) (key : Str) : List (Str × JVal) :=
  match List.lookup key fields with
  | none =>
    fields ++ [(key, .obj [(( "score".toList), .num 5),
      (( "feedback".toList), .str ( "Not evaluated".toList))])]
  | some (.obj crit) =>
    if (List.lookup ( "score".toList) crit).isSome then fields
    else dictSet fields key (.obj (crit ++ [(( "score".toList), .num 5)]))
  | some v =>
    dictSet fields key (.obj [(( "score".toList), .num 5),
      (( "feedback".toList), .str (pyStrModel v))])

/-- The fallback evaluation data of `_parse_evaluation_response` when
the judge text is present but not decodable as JSON: every criterion
scored at the midpoint 5, plus a truncated echo of the response. -/
def fallbackJudgeData (response : Str) : List (Str × JVal) :=
  [(( "correctness".toList), .obj [(( "score".toList), .num 5),
      (( "feedback".toList), .str ( "Unable to parse evaluation".toList))]),
   (( "completeness".toList), .obj [(( "score".toList), .num 5),
      (( "feedback".toList), .str ( "Unable to parse evaluation".toList))]),
   (( "efficiency".toList), .obj [(( "score".toList), .num 5),
      (( "feedback".toList), .str ( "Unable to parse evaluation".toList))]),
   (( "best_practices".toList), .obj [(( "score".toList), .num 5),
      (( "feedback".toList), .str ( "Unable to parse evaluation".toList))]),
   (( "false_positive_risk".toList), .obj [(( "score".toList), .num 5),
      (( "feedback".toList), .str ( "Unable to parse evaluation".toList))]),
   (( "overall_assessment".toList),
      .str (if response.length > 200 then response.take 200 ++ ( "...".toList) else response))]

/-- The markdown-fence peeling of `_parse_evaluation_response`:
`split("```json")[1].split("```")[0]` when a JSON fence is present,
else `split("```")[1]` when any fence is present. -/
def peelJsonFences (clean : Str) : Str :=
  if isSub ( "```json".toList) clean then
    match (splitOnSub ( "```json".toList) clean (clean.length + 1)).drop 1 with
    | part :: _ =>
      match splitOnSub ( "```".toList) part (part.length + 1) with
      | p0 :: _ => p0
      | [] => part
    | [] => clean
  else if isSub ( "```".toList) clean then
    match (splitOnSub ( "```".toList) clean (clean.length + 1)).drop 1 with
    | part :: _ => part
    | [] => clean
  else clean

/-- `_parse_evaluation_response`, parameterised by the `json.loads`
capability (`none` models `json.JSONDecodeError`).  A decoded non-dict
value raises a `TypeError` during key normalisation, which escapes this
function (modelled as `.error`); a decode failure yields the neutral
fallback data. -/
def parse_evaluation_response (jsonDecode : Str → Option JVal) (response : Str) :
    Except Str (List (Str × JVal)) :=
  let clean := peelJsonFences (strip response)
  match jsonDecode (strip clean) with
  | some (.obj fields) => .ok (requiredKeys.foldl normalizeCrit fields)
  | some _ => .error ( "TypeError".toList)
  | none => .ok (fallbackJudgeData response)

/-- The `score`-extraction of `_calculate_overall_score`:
`criterion.get("score", 5) / 10.0`; a non-numeric score raises a
`TypeError` (modelled as `.error`). -/
def critScore (crit : List (Str × JVal)) : Except Str ℚ :=
  match List.lookup ( "score".toList) crit with
  | some (.num q) => .ok (q / 10)
  | some _ => .error ( "TypeError".toList)
  | none => .ok ((5 : ℚ) / 10)

/-- `_calculate_overall_score`: weighted average over the criteria
present as dicts; `0.5` when no weight accumulated. -/
def calcOverallScore (data : List (Str × JVal)) : Except Str ℚ := do
  let acc ← judgeWeights.foldlM
    (fun (acc : ℚ × ℚ) (kw : Str × ℚ) => do
      match List.lookup kw.1 data with
      | some (.obj crit) => do
        let s ← critScore crit
        pure (acc.1 + s * kw.2, acc.2 + kw.2)
      | some _ => pure acc
      | none => pure acc)
    ((0 : ℚ), (0 : ℚ))
  if acc.2 > 0 then pure (acc.1 / acc.2) else pure (1 / 2)

/-- `_format_feedback`: the criterion display names, in source order. -/
def criteriaNames : List (Str × Str) :=
  [(( "correctness".toList), ( "Correctness".toList)),
   (( "completeness".toList), ( "Completeness".toList)),
   (( "efficiency".toList), ( "Efficiency".toList)),
   (( "best_practices".toList), ( "Best Practices".toList)),
   (( "false_positive_risk".toList), ( "False Positive Risk".toList))]

/-- `" | ".join(parts)`. -/
def joinPipe (ls : List Str) : Str :=
  match ls with
  | [] => []
  | [l] => l
  | l :: t => l ++ ( " | ".toList) ++ joinPipe t

/-- `_format_feedback`: overall assessment followed by per-criterion
`Name (score/10): feedback` entries. -/
def format_feedback (data : List (Str × JVal)) : Str :=
  let overall :=
    match List.lookup ( "overall_assessment".toList) data with
    | some v => [( "Overall: ".toList) ++ pyStrModel v]
    | none => []
  let crits := criteriaNames.filterMap (fun kn =>
    match List.lookup kn.1 data with
    | some (.obj crit) =>
      let s := match List.lookup ( "score".toList) crit with
        | some v => pyStrModel v
        | none => ( "?".toList)
      let f := match List.lookup ( "feedback".toList) crit with
        | some v => pyStrModel v
        | none => ( "No feedback".toList)
      some (kn.2 ++ ( " (".toList) ++ s ++ ( "/10): ".toList) ++ f)
    | some _ => none
    | none => none)
  joinPipe (overall ++ crits)

/-- Result dictionary of `LLMJudge.evaluate`. -/
structure JudgeResults where
  llm_judge_score : ℚ
  llm_judge_feedback : Str
  llm_judge_details : List (Str × JVal)

/-- `LLMJudge.evaluate`, parameterised by the configured-client flag,
the outcome of `_get_llm_evaluation` (already wrapped as
`LLM evaluation failed: …` by the source on client errors) and the
`json.loads` capability.  Any exception inside the `try` block —
obtaining the judgment, the `TypeError` paths of parsing, or scoring —
produces a zero score with an `LLM judge error:` diagnostic. -/
def llmJudgeEvaluate (hasClient : Bool) (getEval : Except Str Str)
    (jsonDecode : Str → Option JVal) : JudgeResults :=
  if !hasClient then
    ⟨0, ( "LLM judge not configured".toList), []⟩
  else
    match getEval with
    | .error e =>
      ⟨0, ( "LLM judge error: ".toList) ++ e, [(( "error".toList), .str e)]⟩
    | .ok response =>
      match parse_evaluation_response jsonDecode response with
      | .error e =>
        ⟨0, ( "LLM judge error: ".toList) ++ e, [(( "error".toList), .str e)]⟩
      | .ok data =>
        match calcOverallScore data with
        | .error e =>
          ⟨0, ( "LLM judge error: ".toList) ++ e, [(( "error".toList), .str e)]⟩
        | .ok overall => ⟨overall, format_feedback data, data⟩

/-! ## Claim C8 -/

/-- C8: in the judge evaluator, a failure to obtain the judgment, or a
`TypeError` escaping its parsing, yields a judge score of exactly 0.0
with an `LLM judge error:` diagnostic in the feedback; a judge response
that is present but not decodable as JSON instead yields the neutral
fallback — every criterion scored at 5 of 10 — and an overall judge
score of exactly 0.5. -/
theorem c8_judge_failure_modes :
    (∀ (jsonDecode : Str → Option JVal) (e : Str),
      (llmJudgeEvaluate true (.error e) jsonDecode).llm_judge_score = 0 ∧
      (llmJudgeEvaluate true (.error e) jsonDecode).llm_judge_feedback =
        ( "LLM judge error: ".toList) ++ e) ∧
    (∀ (jsonDecode : Str → Option JVal) (resp pe : Str),
      parse_evaluation_response jsonDecode resp = .error pe →
      (llmJudgeEvaluate true (.ok resp) jsonDecode).llm_judge_score = 0 ∧
      (llmJudgeEvaluate true (.ok resp) jsonDecode).llm_judge_feedback =
        ( "LLM judge error: ".toList) ++ pe) ∧
    (∀ (jsonDecode : Str → Option JVal) (resp : Str),
      jsonDecode (strip (peelJsonFences (strip resp))) = none →
      (llmJudgeEvaluate true (.ok resp) jsonDecode).llm_judge_score = 1 / 2 ∧
      (llmJudgeEvaluate true (.ok resp) jsonDecode).llm_judge_details =
        fallbackJudgeData resp ∧
      (∀ k ∈ requiredKeys, ∃ crit,
        List.lookup k (fallbackJudgeData resp) = some (.obj crit) ∧
        List.lookup ( "score".toList) crit = some (.num 5))) := by
  have hred : ∀ (jsonDecode : Str → Option JVal) (resp : Str),
      llmJudgeEvaluate true (Except.ok resp) jsonDecode =
        (match parse_evaluation_response jsonDecode resp with
          | .error e =>
            (⟨0, ( "LLM judge error: ".toList) ++ e, [(( "error".toList), JVal.str e)]⟩ :
              JudgeResults)
          | .ok data =>
            match calcOverallScore data with
            | .error e =>
              ⟨0, ( "LLM judge error: ".toList) ++ e, [(( "error".toList), JVal.str e)]⟩
            | .ok overall => ⟨overall, format_feedback data, data⟩) :=
    fun _ _ => rfl
  refine ⟨?_, ?_, ?_⟩
  · intro jsonDecode e
    exact ⟨rfl, rfl⟩
  · intro jsonDecode resp pe hp
    rw [hred, hp]
    exact ⟨rfl, rfl⟩
  · intro jsonDecode resp hd
    have hp : parse_evaluation_response jsonDecode resp = .ok (fallbackJudgeData resp) := by
      simp only [parse_evaluation_response]
      rw [hd]
    have hcalc : calcOverallScore (fallbackJudgeData resp) = .ok (1 / 2) := by
      simp only [calcOverallScore, fallbackJudgeData, judgeWeights, critScore]
      norm_num [List.lookup]
      norm_num [bind, Except.bind, pure, Except.pure]
    have hstep : llmJudgeEvaluate true (Except.ok resp) jsonDecode =
        (match calcOverallScore (fallbackJudgeData resp) with
          | .error e =>
            (⟨0, ( "LLM judge error: ".toList) ++ e, [(( "error".toList), JVal.str e)]⟩ :
              JudgeResults)
          | .ok overall =>
            ⟨overall, format_feedback (fallbackJudgeData resp), fallbackJudgeData resp⟩) := by
      rw [hred, hp]
    rw [hstep, hcalc]
    refine ⟨rfl, rfl, ?_⟩
    intro k hk
    have hk' : k = ( "correctness".toList) ∨ k = ( "completeness".toList) ∨
        k = ( "efficiency".toList) ∨ k = ( "best_practices".toList) ∨
        k = ( "false_positive_risk".toList) := by
      simpa [requiredKeys, judgeWeights] using hk
    rcases hk' with h | h | h | h | h <;> subst h
    · exact ⟨_, rfl, rfl⟩
    · exact ⟨_, rfl, rfl⟩
    · exact ⟨_, rfl, rfl⟩
    · exact ⟨_, rfl, rfl⟩
    · exact ⟨_, rfl, rfl⟩

/-- Witness for C8 at concrete inputs: an undecodable judge response
scores 0.5; a decodable non-dict judge response (whose key
normalisation raises) scores 0.0. -/
theorem c8_witness :
    (llmJudgeEvaluate true (.ok ( "nonsense".toList)) (fun _ => none)).llm_judge_score = 1 / 2 ∧
    (llmJudgeEvaluate true (.ok ( "[]".toList)) (fun _ => some .other)).llm_judge_score = 0 :=
  ⟨(c8_judge_failure_modes.2.2 (fun _ => none) ( "nonsense".toList) rfl).1,
    (c8_judge_failure_modes.2.1 (fun _ => some .other) ( "[]".toList) ( "TypeError".toList)
      rfl).1⟩

/-! ## Claim C3 -/

/-- A judge response whose JSON decodes to per-criterion scores of 100
(outside the prompt's 0–10 range) — the failing input for the
`score ∈ [0,1]` invariant. -/
def judgeData100 : List (Str × JVal) :=
  [(( "correctness".toList), .obj [(( "score".toList), .num 100)]),
   (( "completeness".toList), .obj [(( "score".toList), .num 100)]),
   (( "efficiency".toList), .obj [(( "score".toList), .num 100)]),
   (( "best_practices".toList), .obj [(( "score".toList), .num 100)]),
   (( "false_positive_risk".toList), .obj [(( "score".toList), .num 100)])]

/-- The `json.loads` capability decoding the judge text to
`judgeData100`. -/
def c3JsonDecode : Str → Option JVal := fun _ => some (.obj judgeData100)

/-- The judge evaluation at the failing input. -/
def c3Judge : JudgeResults := llmJudgeEvaluate true (Except.ok ( "scores".toList)) c3JsonDecode

/-- A challenge with no expected features and no test files. -/
def c3Challenge : Challenge := ⟨( "c3".toList), true, ( "d".toList), [], [], []⟩

/-- The merged evaluation results carrying the judge's score. -/
def c3Er : EvalResults := ⟨true, [], [], [], none, some c3Judge.llm_judge_score⟩

/-- C3 (refuting the invariant as coded): when the judge model returns
per-criterion scores of 100, `_calculate_overall_score` yields a judge
score of 10 — its own docstring promises [0,1] — and the composite
score becomes 2.45 > 1, so the `score ∈ [0,1]` invariant fails on the
code as written. -/
theorem c3_out_of_range_judge_breaks_unit_interval :
    c3Judge.llm_judge_score = 10 ∧
    calculate_score c3Challenge ( "rule r \x7b condition: true \x7d".toList) c3Er = 49 / 20 ∧
    ¬ ((49 : ℚ) / 20 ≤ 1) := by
  have hcalc : calcOverallScore judgeData100 = .ok 10 := by
    simp only [calcOverallScore, judgeData100, judgeWeights, critScore]
    norm_num [List.lookup]
    norm_num [bind, Except.bind, pure, Except.pure]
  have hstep : c3Judge =
      (match calcOverallScore judgeData100 with
        | .error e =>
          (⟨0, ( "LLM judge error: ".toList) ++ e, [(( "error".toList), JVal.str e)]⟩ :
            JudgeResults)
        | .ok overall =>
          ⟨overall, format_feedback judgeData100, judgeData100⟩) := rfl
  have h10 : c3Judge.llm_judge_score = 10 := by
    rw [hstep, hcalc]
  refine ⟨h10, ?_, by norm_num⟩
  simp only [calculate_score, c3Er, c3Challenge, execLookup]
  rw [h10]
  norm_num

/-! ## 4.2 Rule Extractor — `src/src/parsing/yara_extractor.py` -/

/-- `NO_RULE_INDICATORS` (yara_extractor.py). -/
def noRuleIndicators : List Str :=
  [( "not actionable".toList), ( "cannot be detected".toList), ( "no yara rule".toList),
   ( "not possible".toList), ( "cannot create".toList), ( "not suitable".toList),
   ( "beyond yara".toList), ( "beyond the capabilities".toList)]

/-- `YaraExtractor._indicates_no_rule`: the lowercased response
contains one of the fixed abstention phrases. -/
def indicatesNoRule (response : Str) : Bool :=
  noRuleIndicators.any (fun ind => isSub ind (toLowerStr response))

/-- All start positions of `needle` in `hay` (the `find`/`pos += 5`
loop of `_extract_rules_from_text`; occurrences of `"rule "` cannot
overlap, so this is the same position list). -/
def occurrencesOf (needle hay : Str) : List Nat :=
  match hay with
  | [] => []
  | _ :: t =>
    let rest := (occurrencesOf needle t).map (· + 1)
    if needle.isPrefixOf hay then 0 :: rest else rest

/-- The candidate spans of `_extract_rules_from_text`: each rule-keyword
position up to the next one (or end of text). -/
def spansFrom (t : Str) : List Nat → List Str
  | [] => []
  | [p] => [t.drop p]
  | p :: q :: rest => ((t.drop p).take (q - p)) :: spansFrom t (q :: rest)

/-- Index just after the last `'\n'` of `s`, if any (used for the
greedy `\s*\n` idiom: the regex consumes through the LAST newline of
the whitespace run). -/
def lastNlIdx (s : Str) : Option Nat :=
  match findSub [ '\n'] s.reverse with
  | some i => some (s.length - 1 - i)
  | none => none

/-- The brace-depth state machine of `_extract_rule_manual_parsing`
(yara_extractor.py, lines 174–210): scan forward counting `{`/`}`
outside string literals (`"…"`, honouring backslash escapes) and regex
literals (`/…/`); return the absolute index one past the closing brace
that balances the first opening brace. -/
def braceScanGo (chars : Str) (idx : Nat) (braceCount : Int) (foundOpening : Bool)
    (inString : Bool) (inRegex : Bool) (escapeNext : Bool) : Option Nat :=
  match chars with
  | [] => none
  | c :: rest =>
    if escapeNext then
      braceScanGo rest (idx + 1) braceCount foundOpening inString inRegex false
    else if c = '\\' then
      braceScanGo rest (idx + 1) braceCount foundOpening inString inRegex true
    else
      let inString' := if c = '"' && !inRegex then !inString else inString
      let inRegex' := if c = '/' && !inString' then !inRegex else inRegex
      if !inString' && !inRegex' then
        if c = '\x7b' then
          braceScanGo rest (idx + 1) (braceCount + 1) true inString' inRegex' false
        else if c = '\x7d' then
          if foundOpening && braceCount - 1 = 0 then some (idx + 1)
          else braceScanGo rest (idx + 1) (braceCount - 1) foundOpening inString' inRegex' false
        else braceScanGo rest (idx + 1) braceCount foundOpening inString' inRegex' false
      else braceScanGo rest (idx + 1) braceCount foundOpening inString' inRegex' false

/-- The backward import-line walk of `_extract_rule_manual_parsing`:
scan the lines before the rule bottom-up; an `import ` line moves
`import_start` to `text.find(<raw line>)`; a non-empty non-import line
stops the walk; blank lines are skipped. -/
def importScan (t : Str) : List Str → Nat → Nat
  | [], cur => cur
  | line :: above, cur =>
    let st := strip line
    if ( "import ".toList).isPrefixOf st then
      importScan t above
        (match findSub line t with
          | some i => i
          | none => cur)
    else if st ≠ [] then cur
    else importScan t above cur

/-- `YaraExtractor._extract_rule_manual_parsing`: locate the (first,
case-insensitive) `rule ` keyword, back up over spaces/tabs, pull in an
immediately preceding block of `import` lines, and cut the candidate at
the brace-balanced end. -/
def extract_rule_manual_parsing (t : Str) : Option Str :=
  match findSub ( "rule ".toList) (toLowerStr t) with
  | none => none
  | some rule_start =>
    let pre := t.take rule_start
    let back := (pre.reverse.takeWhile (fun c => c = ' ' || c = '\t')).length
    let actual_start := rule_start - back
    let import_start := importScan t (splitNl (t.take actual_start)).reverse actual_start
    match braceScanGo (t.drop rule_start) rule_start 0 false false false false with
    | some end_pos => some ((t.take end_pos).drop import_start)
    | none => none

/-- The header fragment `rule\s+\w+\s*\{` of `VALID_RULE_STRUCTURE`
(case-insensitive), matched at the front of `s`; returns the number of
characters consumed (through the opening brace).  The regex engine's
greedy `\s+`/`\w+`/`\s*` runs admit no productive backtracking here, so
maximal-munch is exact. -/
def ruleHeaderEnd (s : Str) : Option Nat :=
  if ciPrefix ( "rule".toList) s then
    let r1 := s.drop 4
    let w := wsRunLen r1
    if w = 0 then none
    else
      let r2 := r1.drop w
      let wd := wordRunLen r2
      if wd = 0 then none
      else
        let r3 := r2.drop wd
        let w2 := wsRunLen r3
        match r3.drop w2 with
        | c :: _ => if c = '\x7b' then some (4 + w + wd + w2 + 1) else none
        | [] => none
  else none

/-- The `condition:\s*.*?\}` tail of `VALID_RULE_STRUCTURE` after the
opening brace: a (case-insensitive) `condition:` somewhere, with a
closing brace anywhere after it.  (For existence, the first
`condition:` occurrence suffices: any later occurrence sees a subset of
the remaining closing braces.) -/
def condThenBrace (s : Str) : Bool :=
  match findSub ( "condition:".toList) (toLowerStr s) with
  | some q => (s.drop (q + 10)).contains '\x7d'
  | none => false

/-- `VALID_RULE_STRUCTURE.search`: some position starts a rule header
followed by a `condition:` marker and a closing brace.  The
optional import prefix of the pattern does not affect existence, since `search`
tries every start position. -/
def validStructSearch (s : Str) : Bool :=
  match s with
  | [] => false
  | _ :: t =>
    (match ruleHeaderEnd s with
      | some k => condThenBrace (s.drop k)
      | none => false) || validStructSearch t

/-- `YaraExtractor._is_valid_rule_structure` (also
`_validate_basic_structure`, which delegates to it). -/
def is_valid_rule_structure (rule : Str) : Bool :=
  if rule = [] || strip rule = [] then false
  else validStructSearch rule

/-- Match one fenced code block at the front of `s` for CODE_BLOCK
pattern `` ```<tag>\s*\n(.*?)``` `` (DOTALL, IGNORECASE): the fence
tag, then a whitespace run that must contain a newline (the greedy
`\s*\n` consumes through its last newline), then the lazy group up to
the nearest closing fence.  Returns (group, match length). -/
def fenceMatchAt (tag : Str) (s : Str) : Option (Str × Nat) :=
  let fence := ( "```".toList) ++ tag
  if ciPrefix fence s then
    let rest := s.drop fence.length
    let run := rest.takeWhile (fun c => isPyWS c)
    match lastNlIdx run with
    | none => none
    | some j =>
      let content := rest.drop (j + 1)
      match findSub ( "```".toList) content with
      | none => none
      | some i =>
        some (content.take i, fence.length + j + 1 + i + 3)
  else none

/-- `re.findall` driver: scan left to right, taking non-overlapping
matches and resuming after each match end. -/
def fenceFindAll (tag : Str) (s : Str) (fuel : Nat) : List Str :=
  match fuel with
  | 0 => []
  | fuel + 1 =>
    match s with
    | [] => []
    | _ :: t =>
      match fenceMatchAt tag s with
      | some (g, len) => g :: fenceFindAll tag (s.drop len) fuel
      | none => fenceFindAll tag t fuel

/-- `\s*$` under `re.MULTILINE`, matched greedily after a position:
consume the whitespace run to end-of-string, else up to (excluding)
the last newline inside the run; fail when the run ends mid-line. -/
def wsToEolEnd (rest : Str) : Option Nat :=
  let w := wsRunLen rest
  if rest.length = w then some w
  else lastNlIdx (rest.take w)

/-- `.*?\}\s*$` (DOTALL + MULTILINE): lazily extend to the first
closing brace whose `\s*$` succeeds; returns total consumed length. -/
def lazyCloseBrace (s : Str) (fuel : Nat) : Option Nat :=
  match fuel with
  | 0 => none
  | fuel + 1 =>
    match findSub ( "\x7d".toList) s with
    | none => none
    | some i =>
      match wsToEolEnd (s.drop (i + 1)) with
      | some j => some (i + 1 + j)
      | none => (lazyCloseBrace (s.drop (i + 1)) fuel).map (· + (i + 1))

/-- One `import\s+"[^"]+"\s*\n` iteration of fallback pattern 1
(case-insensitive); returns consumed length. -/
def importIterEnd (s : Str) : Option Nat :=
  if ciPrefix ( "import".toList) s then
    let r1 := s.drop 6
    let w := wsRunLen r1
    if w = 0 then none
    else
      match r1.drop w with
      | '"' :: r3 =>
        let q := (r3.takeWhile (fun c => c ≠ '"')).length
        if q = 0 then none
        else
          match r3.drop q with
          | '"' :: r5 =>
            (lastNlIdx (r5.takeWhile (fun c => isPyWS c))).map
              (fun j => 6 + w + 1 + q + 1 + j + 1)
          | _ => none
      | _ => none
  else none

/-- The greedy `(?:import\s+"[^"]+"\s*\n)*` loop (backtracking into it
is never productive: the continuation starts with `\s*rule`, which
cannot begin inside a consumed import line). -/
def importLoop (s : Str) (fuel : Nat) : Nat :=
  match fuel with
  | 0 => 0
  | fuel + 1 =>
    match importIterEnd s with
    | some k => k + importLoop (s.drop k) fuel
    | none => 0

/-- Fallback pattern 1,
`(?:import\s+"[^"]+"\s*\n)*\s*rule\s+\w+\s*\{.*?\}\s*$`,
matched at the front of `s`; returns the match length. -/
def p1MatchAt (s : Str) : Option Nat :=
  let im := importLoop s (s.length + 1)
  let r := s.drop im
  let w := wsRunLen r
  match ruleHeaderEnd (r.drop w) with
  | some h => (lazyCloseBrace ((r.drop w).drop h) (s.length + 1)).map (fun l => im + w + h + l)
  | none => none

/-- The one-level-nested body `(?:[^{}]*\{[^{}]*\})*[^{}]*\}` of
fallback pattern 2, after the opening brace: greedily consume
brace-free runs and complete `{…}` pairs; succeed at a closing brace.
Backtracking to fewer pairs is never productive (the tail `[^{}]*\}`
cannot start at an opening brace). -/
def p2Body (s : Str) (fuel : Nat) : Option Nat :=
  match fuel with
  | 0 => none
  | fuel + 1 =>
    let r1 := (s.takeWhile (fun c => c ≠ '\x7b' && c ≠ '\x7d')).length
    match s.drop r1 with
    | '\x7d' :: _ => some (r1 + 1)
    | '\x7b' :: rest2 =>
      let r2 := (rest2.takeWhile (fun c => c ≠ '\x7b' && c ≠ '\x7d')).length
      match rest2.drop r2 with
      | '\x7d' :: _ => (p2Body (s.drop (r1 + 1 + r2 + 1)) fuel).map (· + (r1 + 1 + r2 + 1))
      | _ => none
    | _ => none

/-- Fallback pattern 2, `rule\s+\w+\s*\{(?:[^{}]*\{[^{}]*\})*[^{}]*\}`,
matched at the front of `s`. -/
def p2MatchAt (s : Str) : Option Nat :=
  match ruleHeaderEnd s with
  | some h => (p2Body (s.drop h) (s.length + 1)).map (· + h)
  | none => none

/-- End position (relative) of the earliest `meta:`/`strings:`/
`condition:` marker (case-insensitive) — the lazy `.*?(?:…)` of
fallback pattern 3. -/
def findFirstMarkerEnd (s : Str) : Option Nat :=
  match s with
  | [] => none
  | _ :: t =>
    if ciPrefix ( "meta:".toList) s then some 5
    else if ciPrefix ( "strings:".toList) s then some 8
    else if ciPrefix ( "condition:".toList) s then some 10
    else (findFirstMarkerEnd t).map (· + 1)

/-- Fallback pattern 3,
`rule\s+\w+\s*\{.*?(?:meta:|strings:|condition:).*?\}\s*$` (a later
marker sees a subset of the closing braces, so the lazy choice is
deterministic). -/
def p3MatchAt (s : Str) : Option Nat :=
  match ruleHeaderEnd s with
  | some h =>
    match findFirstMarkerEnd (s.drop h) with
    | some m => (lazyCloseBrace ((s.drop h).drop m) (s.length + 1)).map (· + (h + m))
    | none => none
  | none => none

/-- Fallback pattern 4, `rule\s+\w+[^{]*\{.*?condition:.*?\}\s*$`. -/
def p4MatchAt (s : Str) : Option Nat :=
  if ciPrefix ( "rule".toList) s then
    let r1 := s.drop 4
    let w := wsRunLen r1
    if w = 0 then none
    else
      let r2 := r1.drop w
      let wd := wordRunLen r2
      if wd = 0 then none
      else
        let r3 := r2.drop wd
        let nb := (r3.takeWhile (fun c => c ≠ '\x7b')).length
        match r3.drop nb with
        | '\x7b' :: r4 =>
          match findSub ( "condition:".toList) (toLowerStr r4) with
          | some q =>
            (lazyCloseBrace (r4.drop (q + 10)) (s.length + 1)).map
              (fun l => 4 + w + wd + nb + 1 + q + 10 + l)
          | none => none
        | _ => none
  else none

/-- `re.findall` driver for the fallback patterns (whole match is the
group; all matches here have positive length). -/
def patFindAll (matchAt : Str → Option Nat) (s : Str) (fuel : Nat) : List Str :=
  match fuel with
  | 0 => []
  | fuel + 1 =>
    match s with
    | [] => []
    | _ :: t =>
      match matchAt s with
      | some len => s.take len :: patFindAll matchAt (s.drop len) fuel
      | none => patFindAll matchAt t fuel

/-- `YaraExtractor._extract_rules_from_text`: manual brace-depth
parsing over the keyword-delimited spans first; if it yields nothing
valid, the four fallback regex patterns over the whole text. -/
def extract_rules_from_text (t : Str) : List Str :=
  let manual :=
    if isSub ( "rule ".toList) (toLowerStr t) then
      (spansFrom t (occurrencesOf ( "rule ".toList) (toLowerStr t))).filterMap
        (fun span =>
          match extract_rule_manual_parsing span with
          | some r => if is_valid_rule_structure r then some r else none
          | none => none)
    else []
  if manual ≠ [] then manual
  else
    ((patFindAll p1MatchAt t (t.length + 1)) ++ (patFindAll p2MatchAt t (t.length + 1)) ++
      (patFindAll p3MatchAt t (t.length + 1)) ++
      (patFindAll p4MatchAt t (t.length + 1))).filter
      (fun m => is_valid_rule_structure m)

/-- `re.sub(r'^```.*?\n', '', rule, flags=re.MULTILINE)`: delete every
newline-terminated line that starts with a fence; a final fence line
without a trailing newline survives. -/
def subFenceLines (s : Str) : Str :=
  let ls := splitNl s
  let lastL := ls.getLast?.getD []
  joinNl ((ls.dropLast.filter (fun l => ¬ ( "```".toList).isPrefixOf l)) ++ [lastL])

/-- `re.sub(r'\n```$', '', rule)` (no MULTILINE): strip a trailing
`\n```"`, also when followed by one final newline. -/
def subTrailingFence (s : Str) : Str :=
  if ( "\n```".toList).isSuffixOf s then s.take (s.length - 4)
  else if ( "\n```\n".toList).isSuffixOf s then s.take (s.length - 5) ++ [ '\n']
  else s

/-- The common-indentation removal of `_clean_rule`: the minimum indent
over non-empty, non-`//` lines after the first is stripped from every
non-empty later line (whitespace-only lines become empty). -/
def cleanIndentation (rule : Str) : Str :=
  match splitNl rule with
  | [] => rule
  | first :: tailLines =>
    let qualifying := tailLines.filter
      (fun l => strip l ≠ [] ∧ ¬ ( "//".toList).isPrefixOf (strip l))
    match (qualifying.map (fun l => l.length - (lstrip l).length)).min? with
    | none => rule
    | some m =>
      if m > 0 then
        joinNl (first :: tailLines.map (fun l => if strip l ≠ [] then l.drop m else []))
      else rule

/-- `re.sub(r'rule\s+(\w+)\s*{', r'rule \1 {', rule)` (case-sensitive;
maximal-munch is exact, see `ruleHeaderEnd`). -/
def subRuleHeaderSpacing (s : Str) (fuel : Nat) : Str :=
  match fuel with
  | 0 => s
  | fuel + 1 =>
    match s with
    | [] => []
    | c :: t =>
      let m : Option (Str × Nat) :=
        if ( "rule".toList).isPrefixOf s then
          let r1 := s.drop 4
          let w := wsRunLen r1
          if w = 0 then none
          else
            let r2 := r1.drop w
            let wd := wordRunLen r2
            if wd = 0 then none
            else
              let r3 := r2.drop wd
              let w2 := wsRunLen r3
              match r3.drop w2 with
              | '\x7b' :: _ =>
                some (( "rule ".toList) ++ r2.take wd ++ ( " \x7b".toList),
                  4 + w + wd + w2 + 1)
              | _ => none
        else none
      match m with
      | some (repl, len) => repl ++ subRuleHeaderSpacing (s.drop len) fuel
      | none => c :: subRuleHeaderSpacing t fuel

/-- The section-header alternation `(strings|condition|meta)` at the
front of `s` (case-sensitive), with the matched word. -/
def sectionWordAt (s : Str) : Option (Str × Nat) :=
  if ( "strings".toList).isPrefixOf s then some (( "strings".toList), 7)
  else if ( "condition".toList).isPrefixOf s then some (( "condition".toList), 9)
  else if ( "meta".toList).isPrefixOf s then some (( "meta".toList), 4)
  else none

/-- `re.sub(r'^\s*(strings|condition|meta)\s*$', r'\1:', rule,
flags=re.MULTILINE)`: at a line start, leading whitespace (which may
cross newlines), a bare section word, and `\s*$`; replaced by
`word:`. -/
def subSectionBareEOL (s : Str) (atLineStart : Bool) (fuel : Nat) : Str :=
  match fuel with
  | 0 => s
  | fuel + 1 =>
    match s with
    | [] => []
    | c :: t =>
      let m : Option (Str × Nat) :=
        if atLineStart then
          let w := wsRunLen s
          match sectionWordAt (s.drop w) with
          | some (word, wl) =>
            match wsToEolEnd ((s.drop w).drop wl) with
            | some j => some (word ++ ( ":".toList), w + wl + j)
            | none => none
          | none => none
        else none
      match m with
      | some (repl, len) => repl ++ subSectionBareEOL (s.drop len) false fuel
      | none => c :: subSectionBareEOL t (c = '\n') fuel

/-- `re.sub(r'^\s*(strings|condition|meta)\s+(?!:)', r'\1:', rule,
flags=re.MULTILINE)`: the trailing `\s+` is greedy with a negative
lookahead — when the character after the full whitespace run is `:`,
backtracking gives back one whitespace character (failing only when the
run has length 1). -/
def subSectionNoColon (s : Str) (atLineStart : Bool) (fuel : Nat) : Str :=
  match fuel with
  | 0 => s
  | fuel + 1 =>
    match s with
    | [] => []
    | c :: t =>
      let m : Option (Str × Nat) :=
        if atLineStart then
          let w := wsRunLen s
          match sectionWordAt (s.drop w) with
          | some (word, wl) =>
            let rest := (s.drop w).drop wl
            let run := wsRunLen rest
            if run = 0 then none
            else
              match rest.drop run with
              | ':' :: _ => if run ≥ 2 then some (word ++ ( ":".toList), w + wl + run - 1) else none
              | _ => some (word ++ ( ":".toList), w + wl + run)
          | none => none
        else none
      match m with
      | some (repl, len) => repl ++ subSectionNoColon (s.drop len) false fuel
      | none => c :: subSectionNoColon t (c = '\n') fuel

/-- `re.sub(r'\$(\w+)=', r'$\1 =', rule)`. -/
def subDollarEq (s : Str) (fuel : Nat) : Str :=
  match fuel with
  | 0 => s
  | fuel + 1 =>
    match s with
    | [] => []
    | c :: t =>
      let m : Option (Str × Nat) :=
        if c = '$' then
          let wd := wordRunLen t
          if wd = 0 then none
          else
            match t.drop wd with
            | '=' :: _ => some ( '$' :: t.take wd ++ ( " =".toList), 1 + wd + 1)
            | _ => none
        else none
      match m with
      | some (repl, len) => repl ++ subDollarEq (s.drop len) fuel
      | none => c :: subDollarEq t fuel

/-- One alternative of the skip-check of `_normalize_section_order`:
a delimiter, a newline-free delimiter-free span containing a brace,
and the closing delimiter. -/
def delimBraceScan (d : Char) (s : Str) : Bool :=
  match s with
  | [] => false
  | c :: t =>
    (if c = d then
      let seg := t.takeWhile (fun x => x ≠ d && x ≠ '\n')
      match t.drop seg.length with
      | x :: _ => x = d && (seg.contains '\x7b' || seg.contains '\x7d')
      | [] => false
    else false) || delimBraceScan d t

/-- The skip-check regex
`(/[^/\n]*[\{\}][^/\n]*/|"[^"\n]*[\{\}][^"\n]*")` of
`_normalize_section_order`: a string or regex literal containing a
literal brace. -/
def literalBraceCheck (rule : Str) : Bool :=
  delimBraceScan '/' rule || delimBraceScan '"' rule

/-- The line-dispatch loop of `_normalize_section_order`: accumulate
rule-header, `meta`, `strings` and `condition` lines; stop at the line
that closes the rule (later lines are dropped) and emit the sections in
canonical order. -/
def reorderGo (lines : List Str) (header meta strs cond : List Str)
    (current : Option Nat) (braceCount : Int) : List Str :=
  match lines with
  | [] => header ++ meta ++ strs ++ cond
  | line :: rest =>
    let st := strip line
    if ( "rule ".toList).isPrefixOf st ∧ st.contains '\x7b' then
      reorderGo rest (header ++ [line]) meta strs cond current
        (braceCount + (countChar '\x7b' line : Int))
    else if header = [] ∧ st = [] then
      reorderGo rest header meta strs cond current braceCount
    else if header = [] then
      reorderGo rest (header ++ [line]) meta strs cond current braceCount
    else
      let bc := braceCount + (countChar '\x7b' line : Int) - (countChar '\x7d' line : Int)
      if bc ≤ 0 ∧ line.contains '\x7d' then
        header ++ meta ++ strs ++ (cond ++ [line])
      else if ( "meta:".toList).isPrefixOf st then
        reorderGo rest header (meta ++ [line]) strs cond (some 0) bc
      else if ( "strings:".toList).isPrefixOf st then
        reorderGo rest header meta (strs ++ [line]) cond (some 1) bc
      else if ( "condition:".toList).isPrefixOf st then
        reorderGo rest header meta strs (cond ++ [line]) (some 2) bc
      else
        match current with
        | some 0 => reorderGo rest header (meta ++ [line]) strs cond current bc
        | some 1 => reorderGo rest header meta (strs ++ [line]) cond current bc
        | some 2 => reorderGo rest header meta strs (cond ++ [line]) current bc
        | _ => reorderGo rest (header ++ [line]) meta strs cond current bc

/-- `YaraExtractor._normalize_section_order`: skipped entirely when a
string/regex literal carries a brace; otherwise reorder the top-level
sections into meta → strings → condition. -/
def normalize_section_order (rule : Str) : Str :=
  if literalBraceCheck rule then rule
  else joinNl (reorderGo (splitNl rule) [] [] [] [] none 0)

/-- `YaraExtractor._fix_common_syntax_issues`: header spacing, missing
section colons, `$name=` spacing, and section reordering.  (The quote
sub `(\$\w+\s*=\s*)"([^"]*)"` → `\1"\2"` reconstructs its match
verbatim and is the identity.) -/
def fix_common_syntax_issues (rule : Str) : Str :=
  let r1 := subRuleHeaderSpacing rule (rule.length + 1)
  let r2 := subSectionBareEOL r1 true (r1.length + 1)
  let r3 := subSectionNoColon r2 true (r2.length + 1)
  let r4 := subDollarEq r3 (r3.length + 1)
  normalize_section_order r4

/-- `YaraExtractor._clean_rule`: strip, drop markdown fence artifacts,
remove common indentation, repair common syntax issues. -/
def clean_rule (rule : Str) : Str :=
  fix_common_syntax_issues
    (cleanIndentation (subTrailingFence (subFenceLines (strip rule))))

/-- `re.sub(r'\s+', ' ', s)` via a one-flag scanner: the first
character of each whitespace run becomes a single space, the rest of
the run is dropped. -/
def collapseWSAux (prevWS : Bool) : Str → Str
  | [] => []
  | c :: t =>
    if isPyWS c then
      if prevWS then collapseWSAux true t else ' ' :: collapseWSAux true t
    else c :: collapseWSAux false t

/-- `re.sub(r'\s+', ' ', s)`: collapse every whitespace run to a
single space. -/
def collapseWS (s : Str) : Str := collapseWSAux false s

/-- The body pattern `rule\s+\w+\s*\{[^}]*\}` of the deduplication step
(case-sensitive; the body extends only to the FIRST closing brace),
matched at the front of `s`. -/
def ruleBodyAt (s : Str) : Option Nat :=
  if ( "rule".toList).isPrefixOf s then
    let r1 := s.drop 4
    let w := wsRunLen r1
    if w = 0 then none
    else
      let r2 := r1.drop w
      let wd := wordRunLen r2
      if wd = 0 then none
      else
        let r3 := r2.drop wd
        let w2 := wsRunLen r3
        match r3.drop w2 with
        | '\x7b' :: r4 =>
          let nb := (r4.takeWhile (fun c => c ≠ '\x7d')).length
          match r4.drop nb with
          | '\x7d' :: _ => some (4 + w + wd + w2 + 1 + nb + 1)
          | _ => none
        | _ => none
  else none

/-- `re.search(r'(rule\s+\w+\s*\{[^}]*\})', cleaned, re.DOTALL)`:
leftmost match. -/
def findRuleBody (s : Str) : Option Str :=
  match s with
  | [] => none
  | _ :: t =>
    match ruleBodyAt s with
    | some len => some (s.take len)
    | none => findRuleBody t

/-- The dedup-and-accept loop at the end of `extract_rules`: clean each
candidate, keep only structurally valid ones, skip a candidate whose
(first-closing-brace) body was already seen unless the cleaned text
contains the substring `import`, and skip exact repeats of the
whitespace-collapsed form. -/
def dedupGo (rules : List Str) (seenNorm seenBodies acc : List Str) : List Str :=
  match rules with
  | [] => acc
  | r :: rest =>
    let cleaned := clean_rule r
    if cleaned ≠ [] ∧ is_valid_rule_structure cleaned then
      let normalized := collapseWS (strip cleaned)
      match findRuleBody cleaned with
      | some body0 =>
        let body := collapseWS (strip body0)
        if seenBodies.contains body ∧ ¬ isSub ( "import".toList) cleaned then
          dedupGo rest seenNorm seenBodies acc
        else
          let sb := seenBodies ++ [body]
          if seenNorm.contains normalized then dedupGo rest seenNorm sb acc
          else dedupGo rest (seenNorm ++ [normalized]) sb (acc ++ [cleaned])
      | none =>
        if seenNorm.contains normalized then dedupGo rest seenNorm seenBodies acc
        else dedupGo rest (seenNorm ++ [normalized]) seenBodies (acc ++ [cleaned])
    else dedupGo rest seenNorm seenBodies acc

/-- The `CODE_BLOCK_PATTERNS` fence tags, in order (`yara`, generic,
`yaml`, `YARA` — redundant under IGNORECASE but run again —, `rule`). -/
def codeBlockTags : List Str :=
  [( "yara".toList), ([] : Str), ( "yaml".toList), ( "YARA".toList), ( "rule".toList)]

/-- `YaraExtractor.extract_rules`: abstention check, code-fence
extraction (falling back to whole-text extraction when the fences
yielded nothing), then cleaning plus deduplication. -/
def extract_rules (response : Str) : List Str :=
  if response = [] then []
  else if indicatesNoRule response then []
  else
    let fromBlocks :=
      (codeBlockTags.map (fun tag =>
        ((fenceFindAll tag response (response.length + 1)).map
          extract_rules_from_text).flatten)).flatten
    let rules := if fromBlocks ≠ [] then fromBlocks else extract_rules_from_text response
    dedupGo rules [] [] []

/-- `YaraExtractor.extract_single_rule`: first extracted rule, if
any. -/
def extract_single_rule (response : Str) : Option Str :=
  (extract_rules response).head?

/-! ## Claim C4 -/

/-- C4: a response whose lowercasing contains any of the fixed
abstention phrases makes `extract_rules` return the empty list,
regardless of any rule text also present. -/
theorem c4_abstention_overrides_extraction (r : Str)
    (h : ∃ ind ∈ noRuleIndicators, isSub ind (toLowerStr r) = true) :
    extract_rules r = [] := by
  have hi : indicatesNoRule r = true := by
    rcases h with ⟨ind, hmem, hsub⟩
    unfold indicatesNoRule
    rw [List.any_eq_true]
    exact ⟨ind, hmem, hsub⟩
  unfold extract_rules
  by_cases he : r = []
  · rw [if_pos he]
  · rw [if_neg he, if_pos hi]

/-- The C4 witness response: an abstention phrase followed by
well-formed rule text. -/
def c4Resp : Str :=
  "Cannot create a YARA rule for this. rule x \x7b condition: true \x7d".toList

/-- Witness for C4: the phrase `cannot create` occurs, and extraction
returns the empty list although the response carries a well-formed
rule. -/
theorem c4_witness :
    isSub ( "cannot create".toList) (toLowerStr c4Resp) = true ∧
    extract_rules c4Resp = [] :=
  ⟨by decide,
    c4_abstention_overrides_extraction _ ⟨( "cannot create".toList), by decide, by decide⟩⟩

/-! ## Challenge evaluation — `src/src/benchmark.py`, `_evaluate_challenge` -/

/-- `RuleResult` (result.py), restricted to the fields the evaluated
core determines (model name, timing and the raw response are
identity/latency bookkeeping).  `syntax_valid` embeds the source's
`valid_syntax`. -/
structure RuleResult where
  challenge_id : Str
  generated_rule : Option Str
  syntax_valid : Bool
  execution_results : List (Str × Bool)
  expected_strings_found : List Str
  expected_keywords_found : List Str
  score : ℚ
  error : Option Str
  llm_judge_score : Option ℚ
deriving DecidableEq

/-- `Benchmark._evaluate_challenge` after a successful generation call,
parameterised by the composite scorer and the merged evaluator
dictionary (the `evaluator.evaluate` / `update` loop).  Python's
truthiness test `not rule` is false for `None` and for the empty
string. -/
def evaluate_challenge (scorer : Challenge → Str → EvalResults → ℚ)
    (evals : Challenge → Str → EvalResults) (ch : Challenge) (response : Str) : RuleResult :=
  let rule := extract_single_rule response
  let falsy : Bool :=
    match rule with
    | none => true
    | some r => decide (r = [])
  if ¬ ch.actionable ∧ falsy then
    ⟨ch.id, none, true, [], [], [], 1, none, none⟩
  else if ch.actionable ∧ falsy then
    ⟨ch.id, none, false, [], [], [], 0, some ( "No valid YARA rule extracted".toList), none⟩
  else
    let r := rule.getD []
    let er := evals ch r
    ⟨ch.id, some r, er.syntax_valid, er.execution_results, er.expected_strings_found,
      er.expected_keywords_found, scorer ch r er, er.error, er.llm_judge_score⟩

/-! ## Claim C2 -/

/-- C2: when no rule was extracted, a non-actionable challenge yields
`valid_syntax = true` with score exactly 1, an actionable challenge
yields `valid_syntax = false` with score exactly 0, and the result does
not depend on the composite scorer or the evaluators (they are not
invoked). -/
theorem c2_abstention_shortcircuit (ch : Challenge) (response : Str)
    (hnone : extract_single_rule response = none)
    (scorer scorer' : Challenge → Str → EvalResults → ℚ)
    (evals evals' : Challenge → Str → EvalResults) :
    (ch.actionable = false →
      (evaluate_challenge scorer evals ch response).syntax_valid = true ∧
      (evaluate_challenge scorer evals ch response).score = 1) ∧
    (ch.actionable = true →
      (evaluate_challenge scorer evals ch response).syntax_valid = false ∧
      (evaluate_challenge scorer evals ch response).score = 0) ∧
    evaluate_challenge scorer evals ch response = evaluate_challenge scorer' evals' ch response := by
  cases hact : ch.actionable with
  | false =>
    refine ⟨fun _ => ?_, fun hc => absurd hc (by simp), ?_⟩
    · constructor <;> simp [evaluate_challenge, hnone, hact]
    · simp [evaluate_challenge, hnone, hact]
  | true =>
    refine ⟨fun hc => absurd hc (by simp), fun _ => ?_, ?_⟩
    · constructor <;> simp [evaluate_challenge, hnone, hact]
    · simp [evaluate_challenge, hnone, hact]

/-- Witness for C2 at a concrete non-actionable challenge and a
rule-free response. -/
theorem c2_witness :
    (evaluate_challenge (fun _ _ _ => 0) (fun _ _ => ⟨false, [], [], [], none, none⟩)
      ⟨( "w2".toList), false, ( "d".toList), [], [], []⟩ ( "just text".toList)).score = 1 :=
  ((c2_abstention_shortcircuit ⟨( "w2".toList), false, ( "d".toList), [], [], []⟩
    ( "just text".toList) (by decide)
    (fun _ _ _ => 0) (fun _ _ _ => 0)
    (fun _ _ => ⟨false, [], [], [], none, none⟩)
    (fun _ _ => ⟨false, [], [], [], none, none⟩)).1 rfl).2

/-! ## Claim C6 -/

/-- Modelled from the spec (claim C6's notion of a rule body, which the
code does not implement): the content of the first `rule <name> { … }`
block up to the BALANCED closing brace (braces inside string/regex
literals not counting), ignoring any import prefix. -/
def specBalancedBody (r : Str) : Option Str :=
  match findSub ( "rule ".toList) (toLowerStr r) with
  | none => none
  | some i =>
    (braceScanGo (r.drop i) i 0 false false false false).map (fun e => (r.take e).drop i)

/-- First fenced rule of the C6 response: hex-string braces, condition
`$h`. -/
def c6RuleA : Str :=
  "rule a \x7b strings: $h = \x7b AA \x7d condition: $h \x7d".toList

/-- Second fenced rule of the C6 response: same text up to the first
closing brace, different condition. -/
def c6RuleB : Str :=
  "rule a \x7b strings: $h = \x7b AA \x7d condition: true \x7d".toList

/-- The C6 response: two fenced code blocks with non-identical
(balanced) rule bodies. -/
def c6Resp : Str :=
  "```yara\nrule a \x7b strings: $h = \x7b AA \x7d condition: $h \x7d\n```\n```yara\nrule a \x7b strings: $h = \x7b AA \x7d condition: true \x7d\n```".toList

/-- A response with two fenced code blocks carrying byte-identical rule
bodies. -/
def c6RespIdentical : Str :=
  "```yara\nrule a \x7b condition: true \x7d\n```\n```yara\nrule a \x7b condition: true \x7d\n```".toList

/-- Counterexample to C6 as stated: the two fenced blocks of `c6Resp`
have non-identical balanced rule bodies, yet extraction returns exactly
one rule — the deduplication body only reaches the FIRST closing brace
(`[^}]*`), and the import exemption tests only `'import' in cleaned`,
not an import line the earlier candidate lacked. -/
theorem c6_counterexample :
    specBalancedBody c6RuleA ≠ specBalancedBody c6RuleB ∧
    extract_rules c6Resp = [c6RuleA] := by
  constructor
  · decide
  · decide

/-- One step of `dedupGo` for a valid candidate whose body regex
matches: the three dedup outcomes, as an explicit conditional. -/
theorem dedupGo_cons_body (r : Str) (rest seenNorm seenBodies acc : List Str) (body : Str)
    (hv : clean_rule r ≠ [] ∧ is_valid_rule_structure (clean_rule r) = true)
    (hfb : findRuleBody (clean_rule r) = some body) :
    dedupGo (r :: rest) seenNorm seenBodies acc =
      (if seenBodies.contains (collapseWS (strip body)) ∧
          ¬ isSub ( "import".toList) (clean_rule r) then
        dedupGo rest seenNorm seenBodies acc
      else if seenNorm.contains (collapseWS (strip (clean_rule r))) then
        dedupGo rest seenNorm (seenBodies ++ [collapseWS (strip body)]) acc
      else
        dedupGo rest (seenNorm ++ [collapseWS (strip (clean_rule r))])
          (seenBodies ++ [collapseWS (strip body)]) (acc ++ [clean_rule r])) := by
  simp only [dedupGo, hfb]
  rw [if_pos hv]

/-- C6 as amended: in deduplication, a later candidate is skipped
exactly on the code's test — its body (the `rule <name> {` match up to
the FIRST closing brace, whitespace-collapsed) equals an earlier
accepted candidate's body and the later cleaned candidate does not
contain the substring `import` (the earlier candidate's imports play no
role); a later candidate with a distinct body and distinct collapsed
form is kept after the earlier one; and two fenced blocks with
byte-identical rule bodies still yield exactly one rule. -/
theorem c6_amended_dedup (r1 r2 : Str)
    (h1v : clean_rule r1 ≠ [] ∧ is_valid_rule_structure (clean_rule r1) = true)
    (h2v : clean_rule r2 ≠ [] ∧ is_valid_rule_structure (clean_rule r2) = true)
    (body1 body2 : Str)
    (hfb1 : findRuleBody (clean_rule r1) = some body1)
    (hfb2 : findRuleBody (clean_rule r2) = some body2) :
    (collapseWS (strip body2) = collapseWS (strip body1) →
      isSub ( "import".toList) (clean_rule r2) = false →
      dedupGo [r1, r2] [] [] [] = [clean_rule r1]) ∧
    (collapseWS (strip body2) ≠ collapseWS (strip body1) →
      collapseWS (strip (clean_rule r2)) ≠ collapseWS (strip (clean_rule r1)) →
      dedupGo [r1, r2] [] [] [] = [clean_rule r1, clean_rule r2]) ∧
    extract_rules c6RespIdentical = [( "rule a \x7b condition: true \x7d".toList)] := by
  have hstep1 : dedupGo [r1, r2] [] [] [] =
      dedupGo [r2] [collapseWS (strip (clean_rule r1))]
        [collapseWS (strip body1)] [clean_rule r1] := by
    rw [dedupGo_cons_body r1 [r2] [] [] [] body1 h1v hfb1]
    rw [if_neg (fun h => Bool.noConfusion h.1)]
    rw [if_neg (fun h => Bool.noConfusion h)]
    rw [List.nil_append, List.nil_append, List.nil_append]
  refine ⟨?_, ?_, by decide⟩
  · intro hbeq himp
    rw [hstep1]
    rw [dedupGo_cons_body r2 [] _ _ _ body2 h2v hfb2]
    have hc : ([collapseWS (strip body1)].contains (collapseWS (strip body2))) = true := by
      rw [hbeq]
      simp
    rw [if_pos ⟨hc, fun h => by rw [himp] at h; exact Bool.noConfusion h⟩]
    rfl
  · intro hbne hnne
    rw [hstep1]
    rw [dedupGo_cons_body r2 [] _ _ _ body2 h2v hfb2]
    have hc : ([collapseWS (strip body1)].contains (collapseWS (strip body2))) = false := by
      simp [hbne]
    have hn : ([collapseWS (strip (clean_rule r1))].contains
        (collapseWS (strip (clean_rule r2)))) = false := by
      simp [hnne]
    rw [if_neg (fun h => by rw [hc] at h; exact Bool.noConfusion h.1)]
    rw [if_neg (fun h => by rw [hn] at h; exact Bool.noConfusion h)]
    rfl

/-- Witness for C6's amended statement, on the candidates of `c6Resp`:
equal first-brace bodies and no `import` substring force the skip. -/
theorem c6_witness :
    dedupGo [c6RuleA, c6RuleB] [] [] [] = [clean_rule c6RuleA] :=
  ((c6_amended_dedup c6RuleA c6RuleB (by decide) (by decide)
    (( "rule a \x7b strings: $h = \x7b AA \x7d".toList))
    (( "rule a \x7b strings: $h = \x7b AA \x7d".toList))
    (by decide) (by decide)).1 (by decide) (by decide))

/-! ## Claim C9 -/

/-- The C9 input: a rule whose closing brace is indented and which
carries trailing text after the rule — the first cleaning pass drops
the trailing line (via section reordering) but keeps the indentation,
the second pass then de-indents. -/
def c9Rule : Str :=
  "rule r \x7b\n    strings:\n        $a = \"x\"\n    condition:\n        $a\n      \x7d\njunk".toList

/-- Counterexample to C9 as stated: cleaning is not idempotent on its
own output. -/
theorem c9_counterexample :
    clean_rule (clean_rule c9Rule) ≠ clean_rule c9Rule := by decide

/-- C9 as amended: the cleaning step is not idempotent in general; a
rule that cleaning leaves unchanged (an already-clean rule, i.e. a
fixed point of the cleaner) is also unchanged by a second pass, and
such rules exist. -/
theorem c9_amended_clean_fixed_point (r : Str) (h : clean_rule r = r) :
    clean_rule (clean_rule r) = clean_rule r := by
  rw [h, h]

/-- Witness for C9's amended statement: a canonical multi-line rule
that is a fixed point of the cleaner. -/
theorem c9_witness :
    clean_rule
        ( "rule TestRule \x7b\n    strings:\n        $a = \"malicious\"\n    condition:\n        $a\n\x7d".toList) =
      ( "rule TestRule \x7b\n    strings:\n        $a = \"malicious\"\n    condition:\n        $a\n\x7d".toList) ∧
    clean_rule (clean_rule
        ( "rule TestRule \x7b\n    strings:\n        $a = \"malicious\"\n    condition:\n        $a\n\x7d".toList)) =
      clean_rule
        ( "rule TestRule \x7b\n    strings:\n        $a = \"malicious\"\n    condition:\n        $a\n\x7d".toList) :=
  ⟨by decide, c9_amended_clean_fixed_point _ (by decide)⟩

/-- Witness for C5 at a concrete rule lacking the rule keyword: the
gate's diagnostic is returned and the evaluator reports invalid syntax
for any compile capability. -/
theorem c5_witness :
    (yaraValidatorEvaluate (fun _ => Except.ok ())
      ⟨( "w5".toList), true, ( "d".toList), [], [], []⟩
      ( "nothing".toList)).syntax_valid = false :=
  ((c5_structural_gate ( "nothing".toList)).2.1
    ⟨( "w5".toList), true, ( "d".toList), [], [], []⟩
    (fun _ => Except.ok ()) (fun _ => Except.error (.synErr []))
    ( "Incomplete rule structure - missing 'rule' keyword".toList) (by decide)).2.1
